import Mathlib

/-!
Shallow embedding of `main_backend.py` (futu_algo), the orchestration core of an
algorithmic-trading operator.  Pure functions of the source become Lean functions;
the collaborator calls the source makes (brokerage session, data engines, email
engine) are recorded as explicit event traces, with the collaborators themselves
supplied as abstract parameters.  Python exceptions become an explicit error type,
and Python dicts become association lists with overwrite-on-insert semantics.
-/

namespace FutuAlgo

/-- A Python runtime value as it appears at the plugin-construction boundary of
`__dynamic_instantiation`: either `None` or the realtime input-data dict passed to
strategy constructors (keyed by instrument code, each code mapped to an opaque
representation of its fetched bar series). -/
inductive PyVal where
  | none
  | rtData (d : List (String × Nat))
deriving DecidableEq, Repr

/-- The Python exceptions that the embedded code can raise. -/
inductive PyError where
  | typeError
  | moduleNotFoundError
  | attributeError
  | valueError
deriving DecidableEq, Repr

/-- The spec's `PluginNotFound` taxonomy: an unresolvable plugin name surfaces in
Python as `ModuleNotFoundError` (no module of that name) or `AttributeError`
(no type of the stripped name inside the module). -/
def PyError.isPluginNotFound : PyError → Bool
  | .moduleNotFoundError => true
  | .attributeError => true
  | _ => false

/-- The observable identity of an object built by `__dynamic_instantiation`
(main_backend.py lines 75-82): the module it was loaded from, the class that was
instantiated, and the constructor arguments the class received. -/
structure PluginInstance where
  moduleName : String
  className : String
  ctorArgs : List PyVal
deriving DecidableEq, Repr

/-- The importable-module environment seen by `importlib.import_module`: each
full module name is mapped to the list of attribute (class) names it defines. -/
abbrev ModuleEnv := List (String × List String)

/-- `importlib.import_module(full_name)`: `some attrs` when the module exists,
`Option.none` when it does not (Python raises `ModuleNotFoundError`). -/
def importModule (env : ModuleEnv) (fullName : String) : Option (List String) :=
  (env.find? (fun m => m.1 == fullName)).map Prod.snd

/-- Python's `module_name.replace("_", "")` as used on line 78: remove every
underscore. -/
def stripUnderscores (s : String) : String :=
  String.mk (s.data.filter (fun ch => !(ch == '_')))

/-- `__dynamic_instantiation(prefix, module_name, optional_parameter=None)`
(main_backend.py lines 75-82): import `f"{prefix}.{module_name}"`, take the class
whose name is the module name with underscores stripped, and construct it with
`optional_parameter` when that is not `None`, else with no arguments. -/
def dynamicInstantiation (env : ModuleEnv) (pfx : String) (moduleName : String)
    (optionalParameter : PyVal) : Except PyError PluginInstance :=
  match importModule env (pfx ++ "." ++ moduleName) with
  | Option.none => .error .moduleNotFoundError
  | some attrs =>
    let className := stripUnderscores moduleName
    if attrs.contains className then
      if optionalParameter ≠ PyVal.none then
        .ok ⟨pfx ++ "." ++ moduleName, className, [optionalParameter]⟩
      else
        .ok ⟨pfx ++ "." ++ moduleName, className, []⟩
    else .error .attributeError

/-- A call of `__dynamic_instantiation` that omits `optional_parameter`, so that
Python substitutes the declared default `None`. -/
def dynamicInstantiationNoPayload (env : ModuleEnv) (pfx : String)
    (moduleName : String) : Except PyError PluginInstance :=
  dynamicInstantiation env pfx moduleName PyVal.none

/-- Whether the environment offers a module named `pfx ++ "." ++ moduleName`
containing a class named after the underscore-stripping rule. -/
def hasMatchingType (env : ModuleEnv) (pfx : String) (moduleName : String) : Bool :=
  match importModule env (pfx ++ "." ++ moduleName) with
  | some attrs => attrs.contains (stripUnderscores moduleName)
  | Option.none => false

/-- Whether a resolution attempt failed with one of the errors the spec calls
`PluginNotFound`. -/
def failsPluginNotFound : Except PyError PluginInstance → Bool
  | .error e => e.isPluginNotFound
  | .ok _ => false

/-- A `pathlib.Path` object as produced by `PATH_FILTERS.rglob("*.py")`: the full
path string and its final component (`.name`). -/
structure PyPath where
  pathStr : String
  name : String
deriving DecidableEq, Repr

/-- Python's membership test `needle in p` when `p` is a `pathlib.Path` object:
`Path` defines no `__contains__` and is not iterable, so CPython raises
`TypeError`. -/
def pyInPath (_needle : String) (_p : PyPath) : Except PyError Bool :=
  .error .typeError

/-- The guard of the list comprehension on main_backend.py lines 104-105:
`"__init__" not in file_name and "Filters" not in file_name`, with Python's
short-circuit `and`. The membership tests target the `Path` object itself, not
its `.name`. -/
def compGuard (p : PyPath) : Except PyError Bool := do
  let a ← pyInPath "__init__" p
  if !a then
    let b ← pyInPath "Filters" p
    pure (!b)
  else
    pure false

/-- `Path(file_name).name[:-3]` on line 104: the file's base name without the
trailing `".py"`. -/
def pathStem (p : PyPath) : String :=
  String.mk (p.name.data.take (p.name.data.length - 3))

/-- The list comprehension on lines 104-105 that expands `'all'` into every
plugin source unit's stem: the guard is evaluated for each element of the
`rglob` result in order, and an exception in a guard aborts the whole
comprehension. -/
def allFilterNames : List PyPath → Except PyError (List String)
  | [] => .ok []
  | p :: rest => do
    let keep ← compGuard p
    let tail ← allFilterNames rest
    if keep then pure (pathStem p :: tail) else pure tail

/-- `__init_filter(filter_list)` (main_backend.py lines 95-107): when `"all"`
occurs in the list, replace the list by the expansion of the filters directory,
then resolve every name through `__dynamic_instantiation` with prefix
`"filters"` and no optional parameter. -/
def initFilter (env : ModuleEnv) (rglobResult : List PyPath)
    (filterList : List String) : Except PyError (List PluginInstance) := do
  let names ← if "all" ∈ filterList then allFilterNames rglobResult else pure filterList
  names.mapM (fun n => dynamicInstantiation env "filters" n PyVal.none)

/-- Insert into a Python dict modelled as an association list: assigning to an
existing key overwrites its value in place (keeping the key's position), a new
key is appended at the end. -/
def dictInsert {α : Type} : List (String × α) → String → α → List (String × α)
  | [], k, v => [(k, v)]
  | (k', v') :: rest, k, v =>
    if k' = k then (k, v) :: rest else (k', v') :: dictInsert rest k v

/-- Python dict lookup on the association-list model. -/
def dictLookup {α : Type} : List (String × α) → String → Option α
  | [], _ => Option.none
  | (k, v) :: rest, c => if c = k then some v else dictLookup rest c

/-- Python's `d.get(key, default)`. -/
def pyGet (d : List (String × String)) (k defaultVal : String) : String :=
  (dictLookup d k).getD defaultVal

/-! ### DataSyncPipeline: `daily_update_data` (main_backend.py lines 37-72) -/

/-- The two k-line granularities passed to `update_DW_data`. -/
inductive BarType where
  | day
  | week
deriving DecidableEq, Repr

/-- One collaborator call made by `daily_update_data`, with the arguments the
source passes. -/
inductive UEvent where
  | updateSecurityListFull
  | updatePlateList
  | updateStockBasicinfo
  | updateOwnerPlate (stockList : List String)
  | updateDW (code : String) (years : Nat) (forceUpdate : Bool) (k : BarType)
  | update1M (code : String) (forceUpdate : Bool) (defaultDays : Nat)
deriving DecidableEq, Repr

/-- Python's `ceil(a / b)` on natural inputs with positive `b`, as used for
`ceil(default_days / 365)` on lines 65 and 67. -/
def ceilDiv (a b : Nat) : Nat := (a + b - 1) / b

/-- Python's `max(list)` on line 61: raises `ValueError` on an empty list,
otherwise folds the binary maximum over the elements. -/
def pyMax : List Nat → Except PyError Nat
  | [] => .error .valueError
  | x :: xs => .ok (xs.foldl Nat.max x)

/-- Modelled from the spec: the per-call behaviour of the data-refresh
collaborators (`FutuTrade.update_DW_data`, `update_1M_data`, and the
reference-data refreshes), which live in the engines package and are not under
`src/`.  Per the spec's error design, a `DataSourceUnavailable` upstream failure
in a sync step "is logged and skipped for that instrument/step, pipeline
continues": each call therefore absorbs its upstream failure and yields a
per-call success flag instead of propagating an exception.  `avail` says whether
the upstream source for a given call is available. -/
def att (avail : UEvent → Bool) (e : UEvent) : UEvent × Bool := (e, avail e)

/-- `daily_update_data(futu_trade, stock_list, force_update)` (lines 37-72) as a
trace of collaborator calls: steps 1-4 refresh reference data, step 5 computes
`default_days = max(get_num_days_to_update(c) for c in stock_list)` (raising
`ValueError` when the list is empty), and step 6 refreshes, for each instrument,
daily then weekly bars over `ceil(default_days / 365)` years and then 1-minute
bars over `default_days` days.  `daysOf` abstracts
`DataProcessingInterface.get_num_days_to_update`; `fullEquityList` abstracts
`HKEXInterface.get_equity_list_full()`. -/
def dailyUpdateData (avail : UEvent → Bool) (daysOf : String → Nat)
    (fullEquityList : List String) (stockList : List String)
    (forceUpdate : Bool) : Except PyError (List (UEvent × Bool)) :=
  match pyMax (stockList.map daysOf) with
  | .error e => .error e
  | .ok defaultDays =>
      .ok ([att avail UEvent.updateSecurityListFull,
            att avail UEvent.updatePlateList,
            att avail UEvent.updateStockBasicinfo,
            att avail (UEvent.updateOwnerPlate fullEquityList)] ++
        stockList.flatMap (fun c =>
          [att avail (UEvent.updateDW c (ceilDiv defaultDays 365) forceUpdate BarType.day),
           att avail (UEvent.updateDW c (ceilDiv defaultDays 365) forceUpdate BarType.week),
           att avail (UEvent.update1M c forceUpdate defaultDays)]))

/-- The value `max(get_num_days_to_update(c) for c in c0 :: cs)` computes to on a
non-empty instrument list. -/
def defaultDaysOf (daysOf : String → Nat) (c0 : String) (cs : List String) : Nat :=
  (cs.map daysOf).foldl Nat.max (daysOf c0)

/-- The calls a sync run performs, discarding the per-call success flags (and
empty when the run raised before reaching step 6). -/
def eventsOf (r : Except PyError (List (UEvent × Bool))) : List UEvent :=
  match r with
  | .ok t => t.map Prod.fst
  | .error _ => []

/-! ### RealTimeEvaluationLoop: `init_day_trading` (main_backend.py lines 125-137) -/

/-- The arguments of one `futu_trade.cur_kline_evaluate` call inside the
`while True:` loop on lines 134-135. -/
structure EvalCall where
  stockList : List String
  strategyMap : List (String × PluginInstance)
  subType : String
deriving DecidableEq, Repr

/-- The state of a successfully primed live loop: the bar count requested from
`get_data_realtime`, the fetched input data, the strategy constructions that
happened (in order, all before the loop is entered), the strategy map, and the
infinite iteration stream of the `while True:` loop. -/
structure LoopState where
  fetchKlineNum : Nat
  inputData : List (String × Nat)
  constructions : List (String × PluginInstance)
  strategyMap : List (String × PluginInstance)
  iterations : Nat → EvalCall

/-- How a call of `init_day_trading` ends: `sys.exit(1)`, an uncaught Python
exception, or entering the infinite evaluation loop (the function never returns
in that case). -/
inductive RunOutcome where
  | exited (code : Nat)
  | raised (e : PyError)
  | running (l : LoopState)

def RunOutcome.isRunning : RunOutcome → Bool
  | .running _ => true
  | _ => false

def strategyMapOf : RunOutcome → List (String × PluginInstance)
  | .running l => l.strategyMap
  | _ => []

def constructionsOf : RunOutcome → List (String × PluginInstance)
  | .running l => l.constructions
  | _ => []

def fetchKlineNumOf : RunOutcome → Nat
  | .running l => l.fetchKlineNum
  | _ => 0

def inputDataOf : RunOutcome → List (String × Nat)
  | .running l => l.inputData
  | _ => []

def iterationsOf : RunOutcome → Nat → Option EvalCall
  | .running l, n => some (l.iterations n)
  | _, _ => Option.none

/-- Modelled from the spec: `futu_trade.get_data_realtime(stock_list, sub_type,
kline_num)` lives in the trading engine, not under `src/`; per the spec it is
`fetchRealtime(instruments, granularity, barCount) → per-instrument bar series`,
returning one series per requested instrument.  `w c sub k` abstracts the series
fetched for instrument `c` at granularity `sub` when `k` bars are requested. -/
def getDataRealtime (w : String → String → Nat → Nat) (stockList : List String)
    (subType : String) (klineNum : Nat) : List (String × Nat) :=
  stockList.map (fun c => (c, w c subType klineNum))

/-- `__init_strategy(strategy_name, input_data)` (main_backend.py lines 85-92):
dynamic instantiation with prefix `"strategies"` and `input_data.copy()` as the
optional parameter (the copy has the same value as the original). -/
def initStrategy (env : ModuleEnv) (strategyName : String)
    (inputData : List (String × Nat)) : Except PyError PluginInstance :=
  dynamicInstantiation env "strategies" strategyName (PyVal.rtData inputData)

/-- The dict comprehension on lines 132-133: walk the stock list in order,
construct a value for each element (an exception aborts the comprehension), and
insert into the dict with overwrite semantics.  Returns the construction events
in evaluation order together with the finished dict. -/
def buildDict (f : String → Except PyError PluginInstance) :
    List String → List (String × PluginInstance) → List (String × PluginInstance) →
    Except PyError (List (String × PluginInstance) × List (String × PluginInstance))
  | [], cons, d => .ok (cons.reverse, d)
  | c :: rest, cons, d =>
    match f c with
    | .error e => .error e
    | .ok inst => buildDict f rest ((c, inst) :: cons) (dictInsert d c inst)

/-- `init_day_trading(futu_trade, stock_list, strategy_name, stock_strategy_dict,
sub_type)` (main_backend.py lines 125-137): on subscription failure, `sys.exit(1)`;
on success, fetch realtime data with `kline_num=1000`, build the strategy map with
`stock_strategy_dict.get(stock_code, strategy_name)` resolving each instrument's
strategy name, and enter `while True: futu_trade.cur_kline_evaluate(...)`. -/
def initDayTrading (env : ModuleEnv) (subscribeOk : Bool)
    (w : String → String → Nat → Nat) (stockList : List String)
    (strategyName : String) (stockStrategyDict : List (String × String))
    (subType : String) : RunOutcome :=
  if subscribeOk then
    let inputData := getDataRealtime w stockList subType 1000
    match buildDict
        (fun c => initStrategy env (pyGet stockStrategyDict c strategyName) inputData)
        stockList [] [] with
    | .error e => .raised e
    | .ok (cons, smap) =>
        .running ⟨1000, inputData, cons, smap, fun _ => ⟨stockList, smap, subType⟩⟩
  else .exited 1

/-- The constructor arguments received by the strategy instance bound to
instrument `c`, when the loop is running and `c` is bound. -/
def ctorArgsAt (o : RunOutcome) (c : String) : Option (List PyVal) :=
  (dictLookup (strategyMapOf o) c).map PluginInstance.ctorArgs

/-! ### FilterNotificationPipeline: the `args.filter` branch of `main`
(main_backend.py lines 188-216) -/

/-- One collaborator call made inside the market loop. -/
inductive MEvent where
  | getBasicInfo (marketCode : String)
  | updateStocksHistory (codes : List String)
  | runFilter (names : List String) (pool : List String)
  | sendEmail (subscriber : String) (filterName : String)
      (dict : List (String × String))
deriving DecidableEq, Repr

/-- The collaborators the market loop calls, supplied abstractly.  `basicInfo m`
abstracts `futu_trade.get_stock_basicinfo(Market.m, SecurityType.STOCK)['code']
.tolist()`.  `filterPools names universe` is modelled from the spec: it stands
for `init_stock_filter(names, universe)`'s delegation to
`StockFilter(...).get_filtered_equity_pools()`, which lives in the engines
package (not under `src/`) and reduces the universe to the surviving subset.
`yahooEmail` / `tushareEmail` abstract the per-market enrichment collaborators
(`YahooFinanceInterface.get_stocks_email`, `TuShareInterface.get_stocks_email`),
and `subscriptionList` is the configured subscriber list. -/
structure MEnv where
  basicInfo : String → List String
  filterPools : List String → List String → List String
  yahooEmail : List String → List (String × String)
  tushareEmail : List String → List (String × String)
  subscriptionList : List String

/-- The command-line inputs the branch reads: `args.market`, `args.filter`,
`args.email_name`. -/
structure FilterArgs where
  market : List String
  filterNames : List String
  emailName : Option String
deriving DecidableEq, Repr

/-- Line 215: `args.email_name if args.email_name else "Default Stock Filter"`.
Python truthiness makes both an absent flag (`None`) and an empty string fall
back to the default label. -/
def labelOf : Option String → String
  | Option.none => "Default Stock Filter"
  | some s => if s = "" then "Default Stock Filter" else s

/-- Lines 193-200: the equity branch, guarded by `'HK' in args.market or 'US' in
args.market` (note: the whole requested list, not the loop variable), with
`market_code = Market.HK if market == 'HK' else Market.US`.  Result: the calls
made, the `filtered_stock_list`, and the `filtered_stock_dict`. -/
def equityBranch (env : MEnv) (args : FilterArgs) (market : String) :
    List MEvent × List String × List (String × String) :=
  if "HK" ∈ args.market ∨ "US" ∈ args.market then
    let marketCode := if market = "HK" then "HK" else "US"
    let fullEquityList := env.basicInfo marketCode
    let fsl := env.filterPools args.filterNames fullEquityList
    ([MEvent.getBasicInfo marketCode, MEvent.runFilter args.filterNames fullEquityList],
     fsl, env.yahooEmail fsl)
  else ([], [], [])

/-- Lines 202-209: the CHINA branch, guarded by `'CHINA' in args.market` (again
the whole requested list): concatenate the SH and SZ universes, update their
history, filter, and enrich via TuShare, overwriting the equity branch's
`filtered_stock_list` / `filtered_stock_dict` when taken. -/
def chinaBranch (env : MEnv) (args : FilterArgs)
    (st : List MEvent × List String × List (String × String)) :
    List MEvent × List String × List (String × String) :=
  if "CHINA" ∈ args.market then
    let chinaList := env.basicInfo "SH" ++ env.basicInfo "SZ"
    let fsl := env.filterPools args.filterNames chinaList
    (st.1 ++ [MEvent.getBasicInfo "SH", MEvent.getBasicInfo "SZ",
              MEvent.updateStocksHistory chinaList,
              MEvent.runFilter args.filterNames chinaList],
     fsl, env.tushareEmail fsl)
  else st

/-- One iteration of `for market in args.market:` (lines 190-216): run the two
branches, then either `continue` when `len(filtered_stock_list) == 0`, or send
one email per configured subscriber with the caller-supplied-or-default label. -/
def marketIteration (env : MEnv) (args : FilterArgs) (market : String) :
    List MEvent :=
  let st := chinaBranch env args (equityBranch env args market)
  if st.2.1.length = 0 then st.1
  else st.1 ++ env.subscriptionList.map (fun sub =>
    MEvent.sendEmail sub (labelOf args.emailName) st.2.2)

/-- The whole `args.filter` branch: the market loop over `args.market`. -/
def mainFilterBranch (env : MEnv) (args : FilterArgs) : List MEvent :=
  args.market.flatMap (marketIteration env args)

/-- Whether an event is a notification dispatch. -/
def isSend : MEvent → Bool
  | .sendEmail _ _ _ => true
  | _ => false

/-- The notification dispatches contained in a trace. -/
def sendsOf (evs : List MEvent) : List MEvent := evs.filter isSend

/-- The `filtered_stock_list` the iteration for `market` ends up with. -/
def filteredOf (env : MEnv) (args : FilterArgs) (market : String) : List String :=
  (chinaBranch env args (equityBranch env args market)).2.1

/-- The `filtered_stock_dict` the iteration for `market` ends up with. -/
def dictOf (env : MEnv) (args : FilterArgs) (market : String) :
    List (String × String) :=
  (chinaBranch env args (equityBranch env args market)).2.2

/-! ### Concrete fixtures used by witnesses and counterexamples -/

/-- A small module environment: two strategy plugins and two filter plugins
following the naming convention. -/
def envW : ModuleEnv :=
  [("strategies.Strat_A", ["StratA"]),
   ("strategies.Strat_B", ["StratB"]),
   ("filters.Basic_Filter", ["BasicFilter"]),
   ("filters.Vol_Filter", ["VolFilter"])]

/-- A realtime-data collaborator whose every series is the constant 0. -/
def wW : String → String → Nat → Nat := fun _ _ _ => 0

/-- A filters directory as `rglob` would list it. -/
def pathsW : List PyPath :=
  [⟨"filters/Basic_Filter.py", "Basic_Filter.py"⟩,
   ⟨"filters/Filters.py", "Filters.py"⟩,
   ⟨"filters/__init__.py", "__init__.py"⟩]

/-- An upstream that is always available. -/
def availW : UEvent → Bool := fun _ => true

/-- An upstream where the data source for instrument `HK.A`'s bar refreshes is
down. -/
def availW' : UEvent → Bool := fun e =>
  match e with
  | .updateDW "HK.A" _ _ _ => false
  | .update1M "HK.A" _ _ => false
  | _ => true

/-- Per-instrument staleness: `HK.A` is 400 days stale, everything else 40. -/
def daysOfW : String → Nat := fun c => if c == "HK.A" then 400 else 40

/-- The spec's staleness test vector: instruments `A`, `B`, `C` stale by 1, 40
and 400 days. -/
def daysOf3 : String → Nat :=
  fun c => if c == "A" then 1 else if c == "B" then 40 else 400

/-- A concrete market-loop environment. -/
def mEnvW : MEnv :=
  ⟨fun m => if m == "HK" then ["HK.1", "HK.2"]
            else if m == "SH" then ["SH.1"]
            else if m == "SZ" then ["SZ.1"]
            else ["US.1"],
   fun _ u => u,
   fun l => l.map (fun c => (c, "yahoo")),
   fun l => l.map (fun c => (c, "tushare")),
   ["alice@example.com", "bob@example.com"]⟩

/-- A concrete argument set for the market loop. -/
def argsW : FilterArgs := ⟨["HK"], ["Basic_Filter"], Option.none⟩

/-! ## Theorems -/

/-- Claim C6: for every valid plugin name, resolution returns an instance of the
type whose name equals the given name with all underscores stripped, located in
the module of that name inside the kind's namespace; for every name with no
matching module or type, resolution fails with a `PluginNotFound`-class error
(`ModuleNotFoundError` or `AttributeError`). -/
theorem resolve_follows_naming_rule (env : ModuleEnv) (pfx moduleName : String)
    (p : PyVal) :
    (hasMatchingType env pfx moduleName = true →
      dynamicInstantiation env pfx moduleName p =
        .ok ⟨pfx ++ "." ++ moduleName, stripUnderscores moduleName,
             if p = PyVal.none then [] else [p]⟩) ∧
    (hasMatchingType env pfx moduleName = false →
      failsPluginNotFound (dynamicInstantiation env pfx moduleName p) = true) := by
  unfold hasMatchingType dynamicInstantiation
  cases him : importModule env (pfx ++ "." ++ moduleName) with
  | none => simp [failsPluginNotFound, PyError.isPluginNotFound]
  | some attrs =>
    by_cases hc : stripUnderscores moduleName ∈ attrs
    · by_cases hp : p = PyVal.none <;>
        simp [hc, hp, failsPluginNotFound, PyError.isPluginNotFound]
    · simp [hc, failsPluginNotFound, PyError.isPluginNotFound]

/-- Witness for C6: in the concrete environment `envW`, `Basic_Filter` resolves
to class `BasicFilter` in module `filters.Basic_Filter`, and the unknown name
`No_Such` fails with a `PluginNotFound`-class error. -/
theorem resolve_follows_naming_rule_witness :
    dynamicInstantiation envW "filters" "Basic_Filter" PyVal.none =
      .ok ⟨"filters.Basic_Filter", "BasicFilter", []⟩ ∧
    failsPluginNotFound (dynamicInstantiation envW "filters" "No_Such" PyVal.none)
      = true :=
  ⟨(resolve_follows_naming_rule envW "filters" "Basic_Filter" PyVal.none).1
     (by decide),
   (resolve_follows_naming_rule envW "filters" "No_Such" PyVal.none).2
     (by decide)⟩

/-- Claim C10: resolving a plugin with an explicit `None` constructor payload is
identical to resolving it with no payload, and in both cases the plugin type is
constructed with zero arguments, so a `None` payload is never forwarded to a
plugin constructor. -/
theorem none_payload_not_forwarded (env : ModuleEnv) (pfx moduleName : String) :
    dynamicInstantiation env pfx moduleName PyVal.none =
      dynamicInstantiationNoPayload env pfx moduleName ∧
    (∀ inst, dynamicInstantiation env pfx moduleName PyVal.none = .ok inst →
      inst.ctorArgs = []) := by
  refine ⟨rfl, fun inst h => ?_⟩
  unfold dynamicInstantiation at h
  cases him : importModule env (pfx ++ "." ++ moduleName) with
  | none => rw [him] at h; exact absurd h (by simp)
  | some attrs =>
    rw [him] at h
    by_cases hc : stripUnderscores moduleName ∈ attrs
    · simp [hc] at h
      rw [← h]
    · simp [hc] at h

/-- Witness for C10: constructing `Basic_Filter` with an explicit `None` is the
same as constructing it with no payload, and the constructed instance received
zero arguments. -/
theorem none_payload_not_forwarded_witness :
    dynamicInstantiation envW "filters" "Basic_Filter" PyVal.none =
      dynamicInstantiationNoPayload envW "filters" "Basic_Filter" ∧
    PluginInstance.ctorArgs ⟨"filters.Basic_Filter", "BasicFilter", []⟩ = [] :=
  ⟨(none_payload_not_forwarded envW "filters" "Basic_Filter").1,
   (none_payload_not_forwarded envW "filters" "Basic_Filter").2
     ⟨"filters.Basic_Filter", "BasicFilter", []⟩ rfl⟩

/-- Claim C5 (code bug): expanding the sentinel `'all'` does not enumerate the
discoverable filter names — it raises `TypeError`, because the comprehension's
guard on main_backend.py lines 104-105 applies the substring tests to the
`Path` objects themselves instead of to their `.name` strings (contrast lines
157-158 and 171-172, which use `file_name.name`, and the docstring of
`__init_filter`, which promises that all available filters are returned). -/
theorem initFilter_all_raises_typeError :
    initFilter envW pathsW ["all"] = .error .typeError := rfl

/-! ### Dictionary lemmas -/

theorem dictLookup_dictInsert {α : Type} (d : List (String × α)) (k c : String) (v : α) :
    dictLookup (dictInsert d k v) c = if c = k then some v else dictLookup d c := by
  induction d with
  | nil => by_cases hc : c = k <;> simp [dictInsert, dictLookup, hc]
  | cons kv rest ih =>
    obtain ⟨k', v'⟩ := kv
    by_cases hk : k' = k
    · subst hk
      by_cases hc : c = k' <;> simp [dictInsert, dictLookup, hc]
    · by_cases hc : c = k'
      · subst hc
        have hck : ¬(c = k) := hk
        simp [dictInsert, dictLookup, hk, hck]
      · simp [dictInsert, dictLookup, hk, hc, ih]

theorem keys_dictInsert {α : Type} (d : List (String × α)) (k : String) (v : α) :
    (dictInsert d k v).map Prod.fst =
      if k ∈ d.map Prod.fst then d.map Prod.fst else d.map Prod.fst ++ [k] := by
  induction d with
  | nil => simp [dictInsert]
  | cons kv rest ih =>
    obtain ⟨k', v'⟩ := kv
    by_cases hk : k' = k
    · subst hk
      simp [dictInsert]
    · have hkk : ¬(k = k') := fun h => hk h.symm
      by_cases hm : k ∈ rest.map Prod.fst <;>
        simp [dictInsert, hk, hkk, hm, ih]

theorem nodupKeys_dictInsert {α : Type} (d : List (String × α)) (k : String) (v : α)
    (hd : (d.map Prod.fst).Nodup) : ((dictInsert d k v).map Prod.fst).Nodup := by
  rw [keys_dictInsert]
  by_cases hm : k ∈ d.map Prod.fst
  · simp [hm, hd]
  · simp [hm, List.nodup_append, hd]

theorem countP_eq_one_of_lookup {α : Type} (d : List (String × α)) (c : String)
    (i : α) (hd : (d.map Prod.fst).Nodup) (hl : dictLookup d c = some i) :
    d.countP (fun p => p.1 == c) = 1 := by
  induction d with
  | nil => simp [dictLookup] at hl
  | cons kv rest ih =>
    obtain ⟨k, v⟩ := kv
    simp only [List.map_cons, List.nodup_cons] at hd
    by_cases hc : c = k
    · subst hc
      have hz : rest.countP (fun p => p.1 == c) = 0 := by
        apply List.countP_eq_zero.mpr
        intro p hp hbeq
        exact hd.1 (List.mem_map.mpr ⟨p, hp, by simpa using hbeq⟩)
      simp [List.countP_cons, hz]
    · have hkc : (k == c) = false := beq_eq_false_iff_ne.mpr (Ne.symm hc)
      simp only [dictLookup, if_neg hc] at hl
      simp [List.countP_cons, hkc, ih hd.2 hl]

/-! ### Lemmas about the strategy-map comprehension -/

theorem buildDict_lookup_preserved (f : String → Except PyError PluginInstance) :
    ∀ (codes : List String) (cons d cons' d' : List (String × PluginInstance)),
      buildDict f codes cons d = .ok (cons', d') →
      ∀ c, c ∉ codes → dictLookup d' c = dictLookup d c := by
  intro codes
  induction codes with
  | nil =>
    intro cons d cons' d' h c _
    simp [buildDict] at h
    rw [← h.2]
  | cons c0 rest ih =>
    intro cons d cons' d' h c hc
    cases hf : f c0 with
    | error e => simp [buildDict, hf] at h
    | ok inst =>
      simp only [buildDict, hf] at h
      have h2 := ih ((c0, inst) :: cons) (dictInsert d c0 inst) cons' d' h c
        (fun hm => hc (List.mem_cons_of_mem _ hm))
      have hcc0 : ¬(c = c0) := fun he => hc (he ▸ List.mem_cons_self c0 rest)
      rw [h2, dictLookup_dictInsert, if_neg hcc0]

theorem buildDict_resolves (f : String → Except PyError PluginInstance) :
    ∀ (codes : List String) (cons d cons' d' : List (String × PluginInstance)),
      buildDict f codes cons d = .ok (cons', d') →
      ∀ c ∈ codes, ∃ i, f c = .ok i := by
  intro codes
  induction codes with
  | nil => intro _ _ _ _ _ c hc; exact absurd hc (List.not_mem_nil c)
  | cons c0 rest ih =>
    intro cons d cons' d' h c hc
    cases hf : f c0 with
    | error e => simp [buildDict, hf] at h
    | ok inst =>
      simp only [buildDict, hf] at h
      cases List.mem_cons.mp hc with
      | inl he => exact ⟨inst, he ▸ hf⟩
      | inr hr => exact ih _ _ _ _ h c hr

theorem buildDict_lookup (f : String → Except PyError PluginInstance) :
    ∀ (codes : List String) (cons d cons' d' : List (String × PluginInstance)),
      buildDict f codes cons d = .ok (cons', d') →
      ∀ c i, c ∈ codes → f c = .ok i → dictLookup d' c = some i := by
  intro codes
  induction codes with
  | nil => intro _ _ _ _ _ c _ hc _; exact absurd hc (List.not_mem_nil c)
  | cons c0 rest ih =>
    intro cons d cons' d' h c i hc hf
    cases hf0 : f c0 with
    | error e => simp [buildDict, hf0] at h
    | ok inst0 =>
      simp only [buildDict, hf0] at h
      by_cases hr : c ∈ rest
      · exact ih _ _ _ _ h c i hr hf
      · have hcc0 : c = c0 := by
          cases List.mem_cons.mp hc with
          | inl he => exact he
          | inr he => exact absurd he hr
        subst hcc0
        have hii : inst0 = i := by
          have := hf.symm.trans hf0
          injection this with h'
          exact h'.symm
        have hpres := buildDict_lookup_preserved f rest _ _ _ _ h c hr
        rw [hpres, dictLookup_dictInsert, if_pos rfl, hii]

theorem buildDict_nodupKeys (f : String → Except PyError PluginInstance) :
    ∀ (codes : List String) (cons d cons' d' : List (String × PluginInstance)),
      buildDict f codes cons d = .ok (cons', d') →
      (d.map Prod.fst).Nodup → (d'.map Prod.fst).Nodup := by
  intro codes
  induction codes with
  | nil =>
    intro cons d cons' d' h hd
    simp [buildDict] at h
    rw [← h.2]; exact hd
  | cons c0 rest ih =>
    intro cons d cons' d' h hd
    cases hf : f c0 with
    | error e => simp [buildDict, hf] at h
    | ok inst =>
      simp only [buildDict, hf] at h
      exact ih _ _ _ _ h (nodupKeys_dictInsert d c0 inst hd)

theorem buildDict_cons_count (f : String → Except PyError PluginInstance) :
    ∀ (codes : List String) (cons d cons' d' : List (String × PluginInstance)),
      buildDict f codes cons d = .ok (cons', d') →
      ∀ c, cons'.countP (fun p => p.1 == c) =
        cons.countP (fun p => p.1 == c) + codes.countP (fun x => x == c) := by
  intro codes
  induction codes with
  | nil =>
    intro cons d cons' d' h c
    simp [buildDict] at h
    rw [← h.1]
    simp [List.countP_reverse]
  | cons c0 rest ih =>
    intro cons d cons' d' h c
    cases hf : f c0 with
    | error e => simp [buildDict, hf] at h
    | ok inst =>
      simp only [buildDict, hf] at h
      rw [ih _ _ _ _ h c]
      simp [List.countP_cons]
      omega

theorem buildDict_cons_mem (f : String → Except PyError PluginInstance) :
    ∀ (codes : List String) (cons d cons' d' : List (String × PluginInstance)),
      buildDict f codes cons d = .ok (cons', d') →
      ∀ p ∈ cons', p ∈ cons ∨ f p.1 = .ok p.2 := by
  intro codes
  induction codes with
  | nil =>
    intro cons d cons' d' h p hp
    simp [buildDict] at h
    rw [← h.1] at hp
    exact Or.inl (List.mem_reverse.mp hp)
  | cons c0 rest ih =>
    intro cons d cons' d' h p hp
    cases hf : f c0 with
    | error e => simp [buildDict, hf] at h
    | ok inst =>
      simp only [buildDict, hf] at h
      cases ih _ _ _ _ h p hp with
      | inl hmem =>
        cases List.mem_cons.mp hmem with
        | inl he => exact Or.inr (by rw [he]; exact hf)
        | inr hc => exact Or.inl hc
      | inr hok => exact Or.inr hok

theorem initStrategy_ok_shape (env : ModuleEnv) (n : String)
    (data : List (String × Nat)) (inst : PluginInstance)
    (h : initStrategy env n data = .ok inst) :
    inst = ⟨"strategies." ++ n, stripUnderscores n, [PyVal.rtData data]⟩ := by
  unfold initStrategy dynamicInstantiation at h
  cases him : importModule env ("strategies" ++ "." ++ n) with
  | none => rw [him] at h; exact absurd h (by simp)
  | some attrs =>
    rw [him] at h
    by_cases hcl : stripUnderscores n ∈ attrs
    · simp [hcl] at h
      exact h.symm
    · simp [hcl] at h

theorem initDayTrading_run_shape (env : ModuleEnv) (w : String → String → Nat → Nat)
    (stockList : List String) (strategyName : String)
    (dict : List (String × String)) (subType : String)
    (cons smap : List (String × PluginInstance))
    (hb : buildDict (fun c => initStrategy env (pyGet dict c strategyName)
            (getDataRealtime w stockList subType 1000)) stockList [] [] = .ok (cons, smap)) :
    initDayTrading env true w stockList strategyName dict subType =
      .running ⟨1000, getDataRealtime w stockList subType 1000, cons, smap,
                fun _ => ⟨stockList, smap, subType⟩⟩ := by
  unfold initDayTrading
  simp [hb]

theorem initDayTrading_running_buildDict (env : ModuleEnv)
    (w : String → String → Nat → Nat) (stockList : List String)
    (strategyName : String) (dict : List (String × String)) (subType : String)
    (h : (initDayTrading env true w stockList strategyName dict subType).isRunning = true) :
    ∃ cons smap, buildDict (fun c => initStrategy env (pyGet dict c strategyName)
        (getDataRealtime w stockList subType 1000)) stockList [] [] = .ok (cons, smap) := by
  unfold initDayTrading at h
  cases hb : buildDict (fun c => initStrategy env (pyGet dict c strategyName)
      (getDataRealtime w stockList subType 1000)) stockList [] [] with
  | error e => simp [hb, RunOutcome.isRunning] at h
  | ok pr =>
    obtain ⟨cons, smap⟩ := pr
    exact ⟨cons, smap, rfl⟩

/-- Claim C2: in the live loop, the strategy map built before evaluation begins
binds every instrument of the list to the strategy resolved from the override
map's entry for that instrument when one is present and from the global default
strategy name otherwise, and every instrument in the list gets exactly one
entry. -/
theorem strategyMap_binds_override_or_default (env : ModuleEnv)
    (w : String → String → Nat → Nat) (stockList : List String)
    (strategyName : String) (dict : List (String × String)) (subType : String)
    (h : (initDayTrading env true w stockList strategyName dict subType).isRunning = true) :
    ∀ c ∈ stockList,
      (strategyMapOf (initDayTrading env true w stockList strategyName dict subType)).countP
          (fun p => p.1 == c) = 1 ∧
      dictLookup (strategyMapOf (initDayTrading env true w stockList strategyName dict subType)) c
        = some ⟨"strategies." ++ pyGet dict c strategyName,
                stripUnderscores (pyGet dict c strategyName),
                [PyVal.rtData (getDataRealtime w stockList subType 1000)]⟩ := by
  intro c hc
  obtain ⟨cons, smap, hb⟩ :=
    initDayTrading_running_buildDict env w stockList strategyName dict subType h
  rw [initDayTrading_run_shape env w stockList strategyName dict subType cons smap hb]
  simp only [strategyMapOf]
  obtain ⟨i, hi⟩ := buildDict_resolves _ _ _ _ _ _ hb c hc
  have hlook := buildDict_lookup _ _ _ _ _ _ hb c i hc hi
  have hshape := initStrategy_ok_shape env (pyGet dict c strategyName) _ i hi
  have hnd := buildDict_nodupKeys _ _ _ _ _ _ hb (by simp)
  refine ⟨countP_eq_one_of_lookup smap c i hnd hlook, ?_⟩
  rw [hlook, hshape]

/-- Witness for C2: with instruments `[HK.1, HK.2]`, override `{HK.1 ↦ Strat_A}`
and default `Strat_B`, the built map binds `HK.2` to a `StratB` instance,
exactly once. -/
theorem strategyMap_binds_witness :
    (strategyMapOf (initDayTrading envW true wW ["HK.1", "HK.2"] "Strat_B"
        [("HK.1", "Strat_A")] "K_1M")).countP (fun p => p.1 == "HK.2") = 1 ∧
    dictLookup (strategyMapOf (initDayTrading envW true wW ["HK.1", "HK.2"] "Strat_B"
        [("HK.1", "Strat_A")] "K_1M")) "HK.2" =
      some ⟨"strategies.Strat_B", "StratB",
            [PyVal.rtData [("HK.1", 0), ("HK.2", 0)]]⟩ :=
  strategyMap_binds_override_or_default envW wW ["HK.1", "HK.2"] "Strat_B"
    [("HK.1", "Strat_A")] "K_1M" (by decide) "HK.2" (by decide)

/-- Claim C3: `init_day_trading` ends in `sys.exit(1)` exactly when the initial
subscription fails; when it reaches the running state it has fetched a window of
`kline_num = 1000` most recent bars with one series per instrument, and every
iteration of the never-returning loop invokes `cur_kline_evaluate` on the stock
list with the bound strategy map. -/
theorem live_loop_exit_code_and_evaluation (env : ModuleEnv) (subscribeOk : Bool)
    (w : String → String → Nat → Nat) (stockList : List String)
    (strategyName : String) (dict : List (String × String)) (subType : String) :
    (initDayTrading env subscribeOk w stockList strategyName dict subType = .exited 1 ↔
      subscribeOk = false) ∧
    ((initDayTrading env subscribeOk w stockList strategyName dict subType).isRunning = true →
      fetchKlineNumOf (initDayTrading env subscribeOk w stockList strategyName dict subType)
        = 1000 ∧
      (inputDataOf (initDayTrading env subscribeOk w stockList strategyName dict subType)).map
          Prod.fst = stockList ∧
      ∀ n, iterationsOf (initDayTrading env subscribeOk w stockList strategyName dict subType) n
        = some ⟨stockList,
                strategyMapOf (initDayTrading env subscribeOk w stockList strategyName dict subType),
                subType⟩) := by
  cases subscribeOk with
  | false =>
    constructor
    · simp [initDayTrading]
    · intro h; simp [initDayTrading, RunOutcome.isRunning] at h
  | true =>
    cases hb : buildDict (fun c => initStrategy env (pyGet dict c strategyName)
        (getDataRealtime w stockList subType 1000)) stockList [] [] with
    | error e =>
      have hr : initDayTrading env true w stockList strategyName dict subType = .raised e := by
        unfold initDayTrading; simp [hb]
      rw [hr]
      constructor
      · simp
      · intro h; simp [RunOutcome.isRunning] at h
    | ok pr =>
      obtain ⟨cons, smap⟩ := pr
      rw [initDayTrading_run_shape env w stockList strategyName dict subType cons smap hb]
      constructor
      · simp
      · intro _
        refine ⟨rfl, ?_, fun n => rfl⟩
        simp [inputDataOf, getDataRealtime, List.map_map, Function.comp_def]

/-- Witness for C3: with subscription failure the outcome is exit code 1; with
subscription success against `envW` the fetch asks for 1000 bars and iteration 0
evaluates the bound map. -/
theorem live_loop_witness :
    (initDayTrading envW false wW ["HK.1"] "Strat_B" [] "K_1M" = .exited 1 ↔ false = false) ∧
    fetchKlineNumOf (initDayTrading envW true wW ["HK.1"] "Strat_B" [] "K_1M") = 1000 ∧
    iterationsOf (initDayTrading envW true wW ["HK.1"] "Strat_B" [] "K_1M") 0 =
      some ⟨["HK.1"],
            strategyMapOf (initDayTrading envW true wW ["HK.1"] "Strat_B" [] "K_1M"),
            "K_1M"⟩ :=
  ⟨(live_loop_exit_code_and_evaluation envW false wW ["HK.1"] "Strat_B" [] "K_1M").1,
   ((live_loop_exit_code_and_evaluation envW true wW ["HK.1"] "Strat_B" [] "K_1M").2
     (by decide)).1,
   (((live_loop_exit_code_and_evaluation envW true wW ["HK.1"] "Strat_B" [] "K_1M").2
     (by decide)).2.2) 0⟩

/-- Claim C4 (counterexample): the constructor input of an instrument's strategy
is NOT that instrument's seeded historical window alone.  Two realtime
collaborators that agree on `HK.1`'s series but differ on `HK.2`'s give `HK.1`'s
strategy different constructor inputs, because lines 130-133 of main_backend.py
pass the whole `input_data` dict (covering every subscribed instrument) to every
constructor. -/
theorem strategy_ctor_input_not_per_instrument :
    (fun (_ : String) (_ : String) (_ : Nat) => 0) "HK.1" "K_1M" 1000 =
      (fun (c : String) (_ : String) (_ : Nat) =>
        if c == "HK.2" then 1 else 0) "HK.1" "K_1M" 1000 ∧
    ctorArgsAt (initDayTrading envW true (fun _ _ _ => 0)
        ["HK.1", "HK.2"] "Strat_B" [] "K_1M") "HK.1" ≠
      ctorArgsAt (initDayTrading envW true (fun c _ _ => if c == "HK.2" then 1 else 0)
        ["HK.1", "HK.2"] "Strat_B" [] "K_1M") "HK.1" :=
  ⟨rfl, by decide⟩

/-- Claim C4 (amended): for a duplicate-free instrument list, each instrument's
strategy instance is constructed exactly once, before the evaluation loop
starts, with a copy of the full fetched realtime data for all subscribed
instruments (which contains that instrument's seeded window, among the others)
as its only constructor input; the loop iterations only evaluate and never
reconstruct. -/
theorem strategy_constructed_once_with_full_data (env : ModuleEnv)
    (w : String → String → Nat → Nat) (stockList : List String)
    (strategyName : String) (dict : List (String × String)) (subType : String)
    (hnodup : stockList.Nodup)
    (h : (initDayTrading env true w stockList strategyName dict subType).isRunning = true) :
    ∀ c ∈ stockList,
      (constructionsOf (initDayTrading env true w stockList strategyName dict subType)).countP
          (fun p => p.1 == c) = 1 ∧
      (∀ inst, (c, inst) ∈
          constructionsOf (initDayTrading env true w stockList strategyName dict subType) →
        inst.ctorArgs = [PyVal.rtData (getDataRealtime w stockList subType 1000)]) ∧
      (∀ n, iterationsOf (initDayTrading env true w stockList strategyName dict subType) n =
        some ⟨stockList,
              strategyMapOf (initDayTrading env true w stockList strategyName dict subType),
              subType⟩) := by
  intro c hc
  obtain ⟨cons, smap, hb⟩ :=
    initDayTrading_running_buildDict env w stockList strategyName dict subType h
  rw [initDayTrading_run_shape env w stockList strategyName dict subType cons smap hb]
  simp only [constructionsOf, strategyMapOf, iterationsOf]
  refine ⟨?_, ?_, fun n => trivial⟩
  · rw [buildDict_cons_count _ _ _ _ _ _ hb c]
    simp only [List.countP_nil, Nat.zero_add]
    have hcount : stockList.count c = 1 := List.count_eq_one_of_mem hnodup hc
    simpa [List.count] using hcount
  · intro inst hmem
    cases buildDict_cons_mem _ _ _ _ _ _ hb (c, inst) hmem with
    | inl habs => exact absurd habs (List.not_mem_nil _)
    | inr hok =>
      rw [initStrategy_ok_shape env (pyGet dict c strategyName) _ inst hok]

/-- Witness for the amended C4: with instruments `[HK.1, HK.2]`, `HK.1`'s
strategy is constructed exactly once. -/
theorem strategy_constructed_once_witness :
    (constructionsOf (initDayTrading envW true wW ["HK.1", "HK.2"] "Strat_B" [] "K_1M")).countP
        (fun p => p.1 == "HK.1") = 1 :=
  (strategy_constructed_once_with_full_data envW wW ["HK.1", "HK.2"] "Strat_B" [] "K_1M"
    (by decide) (by decide) "HK.1" (by decide)).1

/-! ### Lemmas about Python's `max` as a left fold -/

theorem le_foldl_max (xs : List Nat) : ∀ x : Nat, x ≤ xs.foldl Nat.max x := by
  induction xs with
  | nil => intro x; exact Nat.le_refl x
  | cons y ys ih => intro x; exact Nat.le_trans (Nat.le_max_left x y) (ih (Nat.max x y))

theorem mem_le_foldl_max (xs : List Nat) :
    ∀ (x a : Nat), a ∈ xs → a ≤ xs.foldl Nat.max x := by
  induction xs with
  | nil => intro _ a h; exact absurd h (List.not_mem_nil a)
  | cons y ys ih =>
    intro x a h
    cases List.mem_cons.mp h with
    | inl he =>
      subst he
      exact Nat.le_trans (Nat.le_max_right x a) (le_foldl_max ys (Nat.max x a))
    | inr hm => exact ih (Nat.max x y) a hm

theorem nat_max_choice (a b : Nat) : Nat.max a b = a ∨ Nat.max a b = b :=
  max_choice a b

theorem foldl_max_mem (xs : List Nat) :
    ∀ x : Nat, xs.foldl Nat.max x = x ∨ xs.foldl Nat.max x ∈ xs := by
  induction xs with
  | nil => intro x; exact Or.inl rfl
  | cons y ys ih =>
    intro x
    cases ih (Nat.max x y) with
    | inl h =>
      cases nat_max_choice x y with
      | inl hx => exact Or.inl (by rw [List.foldl_cons, h, hx])
      | inr hy =>
        exact Or.inr (by rw [List.foldl_cons, h, hy]; exact List.mem_cons_self y ys)
    | inr h => exact Or.inr (List.mem_cons_of_mem y h)

/-- Claim C1: for a non-empty instrument list, the staleness bound is a single
global value — the maximum over the list of each instrument's days since its
last local bar — and the sync trace then refreshes, for every instrument, daily
bars, weekly bars (each spanning `ceil(daysToUpdate / 365)` years) and 1-minute
bars (spanning `daysToUpdate` days), all computed from that same global value. -/
theorem sync_uses_global_staleness (avail : UEvent → Bool) (daysOf : String → Nat)
    (fullEquityList : List String) (force : Bool) (c0 : String) (cs : List String) :
    (∀ c ∈ c0 :: cs, daysOf c ≤ defaultDaysOf daysOf c0 cs) ∧
    (∃ c ∈ c0 :: cs, daysOf c = defaultDaysOf daysOf c0 cs) ∧
    dailyUpdateData avail daysOf fullEquityList (c0 :: cs) force =
      .ok ([att avail UEvent.updateSecurityListFull,
            att avail UEvent.updatePlateList,
            att avail UEvent.updateStockBasicinfo,
            att avail (UEvent.updateOwnerPlate fullEquityList)] ++
        (c0 :: cs).flatMap (fun c =>
          [att avail (UEvent.updateDW c (ceilDiv (defaultDaysOf daysOf c0 cs) 365)
             force BarType.day),
           att avail (UEvent.updateDW c (ceilDiv (defaultDaysOf daysOf c0 cs) 365)
             force BarType.week),
           att avail (UEvent.update1M c force (defaultDaysOf daysOf c0 cs))])) := by
  refine ⟨?_, ?_, rfl⟩
  · intro c hc
    cases List.mem_cons.mp hc with
    | inl he => subst he; exact le_foldl_max _ _
    | inr hm => exact mem_le_foldl_max _ _ _ (List.mem_map_of_mem daysOf hm)
  · cases foldl_max_mem (cs.map daysOf) (daysOf c0) with
    | inl h => exact ⟨c0, List.mem_cons_self c0 cs, h.symm⟩
    | inr h =>
      obtain ⟨c, hcm, hce⟩ := List.mem_map.mp h
      exact ⟨c, List.mem_cons_of_mem c0 hcm, hce⟩

/-- Witness for C1, on the spec's own test vector: with instruments stale by 1,
40 and 400 days, every staleness is bounded by the global value, the global
value is attained, and the daily/weekly span computed from it is
`ceil(400/365) = 2` years. -/
theorem sync_uses_global_staleness_witness :
    daysOf3 "B" ≤ defaultDaysOf daysOf3 "A" ["B", "C"] ∧
    daysOf3 "C" = defaultDaysOf daysOf3 "A" ["B", "C"] ∧
    ceilDiv (defaultDaysOf daysOf3 "A" ["B", "C"]) 365 = 2 :=
  ⟨(sync_uses_global_staleness availW daysOf3 [] false "A" ["B", "C"]).1 "B"
     (by decide),
   by decide, by decide⟩

/-- Claim C8: the sequence of refresh calls the sync pipeline attempts is the
same no matter which upstream data sources are down (the per-call failures are
absorbed inside the collaborator, per the spec), and every instrument of the
list has its daily, weekly and 1-minute refresh attempted. -/
theorem sync_refresh_continues_per_instrument (avail avail' : UEvent → Bool)
    (daysOf : String → Nat) (fullEquityList : List String) (force : Bool)
    (c0 : String) (cs : List String) (c : String) (hc : c ∈ c0 :: cs) :
    eventsOf (dailyUpdateData avail daysOf fullEquityList (c0 :: cs) force) =
      eventsOf (dailyUpdateData avail' daysOf fullEquityList (c0 :: cs) force) ∧
    UEvent.updateDW c (ceilDiv (defaultDaysOf daysOf c0 cs) 365) force BarType.day ∈
      eventsOf (dailyUpdateData avail daysOf fullEquityList (c0 :: cs) force) ∧
    UEvent.updateDW c (ceilDiv (defaultDaysOf daysOf c0 cs) 365) force BarType.week ∈
      eventsOf (dailyUpdateData avail daysOf fullEquityList (c0 :: cs) force) ∧
    UEvent.update1M c force (defaultDaysOf daysOf c0 cs) ∈
      eventsOf (dailyUpdateData avail daysOf fullEquityList (c0 :: cs) force) := by
  have hev : ∀ av : UEvent → Bool,
      eventsOf (dailyUpdateData av daysOf fullEquityList (c0 :: cs) force) =
        [UEvent.updateSecurityListFull, UEvent.updatePlateList,
         UEvent.updateStockBasicinfo, UEvent.updateOwnerPlate fullEquityList] ++
        (c0 :: cs).flatMap (fun c' =>
          [UEvent.updateDW c' (ceilDiv (defaultDaysOf daysOf c0 cs) 365) force BarType.day,
           UEvent.updateDW c' (ceilDiv (defaultDaysOf daysOf c0 cs) 365) force BarType.week,
           UEvent.update1M c' force (defaultDaysOf daysOf c0 cs)]) := by
    intro av
    simp [eventsOf, dailyUpdateData, pyMax, att, defaultDaysOf, List.map_flatMap]
  refine ⟨by rw [hev avail, hev avail'], ?_, ?_, ?_⟩ <;>
  · rw [hev avail]
    refine List.mem_append_right _ (List.mem_flatMap.mpr ⟨c, hc, ?_⟩)
    simp

/-- Witness for C8: with `HK.A`'s upstream source down (and `HK.A` 400 days
stale, `HK.B` 40 days stale), `HK.B`'s daily refresh over `ceil(400/365) = 2`
years is still attempted. -/
theorem sync_refresh_witness :
    UEvent.updateDW "HK.B" 2 false BarType.day ∈
      eventsOf (dailyUpdateData availW' daysOfW [] ["HK.A", "HK.B"] false) :=
  (sync_refresh_continues_per_instrument availW' availW daysOfW [] false
    "HK.A" ["HK.B"] "HK.B" (by decide)).2.1

/-! ### Lemmas about the market loop's notification dispatch -/

theorem sendsOf_append (l1 l2 : List MEvent) :
    sendsOf (l1 ++ l2) = sendsOf l1 ++ sendsOf l2 :=
  List.filter_append _ _

theorem sendsOf_flatMap (l : List String) (g : String → List MEvent) :
    sendsOf (l.flatMap g) = l.flatMap (fun a => sendsOf (g a)) := by
  induction l with
  | nil => rfl
  | cons x xs ih => simp only [List.flatMap_cons, sendsOf_append, ih]

theorem sendsOf_branch_events (env : MEnv) (args : FilterArgs) (m : String) :
    sendsOf ((chinaBranch env args (equityBranch env args m)).1) = [] := by
  unfold chinaBranch equityBranch
  split_ifs <;> simp [sendsOf, isSend, List.filter_append]

theorem sendsOf_map_send (subs : List String) (lbl : String)
    (d : List (String × String)) :
    sendsOf (subs.map (fun sub => MEvent.sendEmail sub lbl d)) =
      subs.map (fun sub => MEvent.sendEmail sub lbl d) := by
  induction subs with
  | nil => rfl
  | cons x xs ih => simp [sendsOf, isSend, List.filter_cons, ih]

theorem sendsOf_marketIteration (env : MEnv) (args : FilterArgs) (m : String) :
    sendsOf (marketIteration env args m) =
      if (filteredOf env args m).length = 0 then []
      else env.subscriptionList.map (fun sub =>
        MEvent.sendEmail sub (labelOf args.emailName) (dictOf env args m)) := by
  unfold marketIteration filteredOf dictOf
  by_cases h : (chinaBranch env args (equityBranch env args m)).2.1.length = 0
  · rw [if_pos h, if_pos h, sendsOf_branch_events]
  · rw [if_neg h, if_neg h, sendsOf_append, sendsOf_branch_events, sendsOf_map_send]
    rfl

/-- Claim C7: across a whole run of the filter branch, a market whose computed
filtered set is empty dispatches zero notifications while the other markets'
iterations proceed unchanged; a market with a non-empty filtered set dispatches
exactly one notification per configured subscriber, labeled with the
caller-supplied name when one is given (non-empty, per Python truthiness) and
with the default label otherwise. -/
theorem empty_result_suppression (env : MEnv) (args : FilterArgs) :
    sendsOf (mainFilterBranch env args) =
      args.market.flatMap (fun m =>
        if (filteredOf env args m).length = 0 then []
        else env.subscriptionList.map (fun sub =>
          MEvent.sendEmail sub (labelOf args.emailName) (dictOf env args m))) ∧
    (∀ s : String, s ≠ "" → labelOf (some s) = s) ∧
    labelOf Option.none = "Default Stock Filter" := by
  refine ⟨?_, fun s hs => by simp [labelOf, hs], rfl⟩
  unfold mainFilterBranch
  rw [sendsOf_flatMap]
  have hfun : (fun m => sendsOf (marketIteration env args m)) =
      (fun m => if (filteredOf env args m).length = 0 then []
        else env.subscriptionList.map (fun sub =>
          MEvent.sendEmail sub (labelOf args.emailName) (dictOf env args m))) :=
    funext (fun m => sendsOf_marketIteration env args m)
  rw [hfun]

/-- Witness for C7: a non-empty caller-supplied label is used as given, and an
absent one falls back to the default label. -/
theorem empty_result_suppression_witness :
    labelOf (some "Momentum") = "Momentum" ∧
    labelOf Option.none = "Default Stock Filter" :=
  ⟨(empty_result_suppression mEnvW argsW).2.1 "Momentum" (by decide),
   (empty_result_suppression mEnvW argsW).2.2⟩

/-- Claim C9 (code bug): with requested markets `['CHINA', 'HK']`, the iteration
for `CHINA` also runs the equity branch — retrieving the US-market metadata,
since the loop variable is not `'HK'` — and the iteration for `HK` also runs the
CHINA branch, updating and filtering the SH+SZ universe and overwriting the HK
result.  The guards on lines 193 and 202 of main_backend.py test membership in
the whole `args.market` list instead of the loop variable `market`. -/
theorem market_branch_not_per_market :
    MEvent.getBasicInfo "US" ∈
      marketIteration mEnvW ⟨["CHINA", "HK"], ["Basic_Filter"], Option.none⟩ "CHINA" ∧
    MEvent.updateStocksHistory (mEnvW.basicInfo "SH" ++ mEnvW.basicInfo "SZ") ∈
      marketIteration mEnvW ⟨["CHINA", "HK"], ["Basic_Filter"], Option.none⟩ "HK" := by
  decide

end FutuAlgo
